import Mathlib

/-!
Verification development for the wmfdb repository (operations-software-wmfdb).

The Python sources `wmfdb/mycnf.py`, `wmfdb/section.py` and `wmfdb/addr.py`
are shallowly embedded below: pure string processing is translated to
functions on `List Char` / `String`, raising code is translated to
`Except String`, and Python dicts are translated to association lists.
-/

namespace Wmfdb

/-! ## Python string primitives used by the sources -/

/-- Python `str.rstrip()` (no argument): drop trailing whitespace. -/
def pyRstripL (l : List Char) : List Char :=
  (l.reverse.dropWhile Char.isWhitespace).reverse

/-- Python `str.strip()` (no argument): drop leading and trailing whitespace. -/
def pyStripL (l : List Char) : List Char :=
  pyRstripL (l.dropWhile Char.isWhitespace)

/-- Python `str.strip()` on `String`. -/
def pyStrip (s : String) : String :=
  String.mk (pyStripL s.toList)

/-- Python `s.index(ch, start)` as an `Option`: the first position at index
`start` or later whose character satisfies `p` (`none` where Python raises
`ValueError`). -/
def findIdxFrom (p : Char → Bool) (l : List Char) (start : Nat) : Option Nat :=
  ((l.drop start).findIdx? p).map (fun i => start + i)

/-- Helper for Python `int()`: digits (with single underscores allowed
between digits, as in Python 3) accumulated into a value. -/
def pyDigitsCore : Nat → List Char → Option Nat
  | acc, [] => some acc
  | acc, c :: cs =>
    if c.isDigit then pyDigitsCore (acc * 10 + (c.toNat - 48)) cs
    else if c = '_' then
      match cs with
      | c2 :: cs2 =>
        if c2.isDigit then pyDigitsCore (acc * 10 + (c2.toNat - 48)) cs2 else none
      | [] => none
    else none

/-- Helper for Python `int()`: a non-empty digit run (underscore cannot lead). -/
def pyDigits : List Char → Option Nat
  | [] => none
  | c :: cs => if c.isDigit then pyDigitsCore (c.toNat - 48) cs else none

/-- Python `int(s)` on a decimal string: surrounding whitespace is ignored,
an optional sign is allowed, then a digit run. `none` where Python raises
`ValueError`. -/
def pyInt? (s : String) : Option Int :=
  match pyStripL s.toList with
  | '+' :: ds => (pyDigits ds).map Int.ofNat
  | '-' :: ds => (pyDigits ds).map (fun n => -(Int.ofNat n : Int))
  | ds => (pyDigits ds).map Int.ofNat

/-- Decidable equality for `Except`, used to evaluate results of the
embedded fallible functions on concrete inputs. -/
instance {ε α : Type} [DecidableEq ε] [DecidableEq α] : DecidableEq (Except ε α) :=
  fun a b =>
    match a, b with
    | .error e1, .error e2 => decidable_of_iff (e1 = e2) (by simp)
    | .ok x, .ok y => decidable_of_iff (x = y) (by simp)
    | .error _, .ok _ => isFalse (fun h => Except.noConfusion h)
    | .ok _, .error _ => isFalse (fun h => Except.noConfusion h)

/-! ## `wmfdb/mycnf.py`: `Cnf._cleanup_comment` and `Cnf._cleanup_value` -/

/-- Embeds `Cnf._cleanup_comment` (mycnf.py:168-209): strip in-line comments.

* If the value does not start with a quote char, or its leading quote char
  occurs exactly once, truncate at the first `#` and strip trailing
  whitespace.
* Otherwise find the second occurrence of the leading quote char, and
  truncate (plus rstrip) at the first `#` at or after it; if there is no
  such `#`, return the value unchanged. -/
def cleanupComment (val : List Char) : List Char :=
  match val with
  | [] => []
  | c0 :: _ =>
    if ¬ val.contains '#' then val
    else if ¬ (c0 = '"' ∨ c0 = '\'') ∨ val.count c0 = 1 then
      -- Value is not (properly) quoted: drop everything after the first '#'.
      match findIdxFrom (fun c => c = '#') val 0 with
      | some i => pyRstripL (val.take i)
      | none => val
    else
      -- Value is quoted: find the next quote (`val.index(val[0], 1)`).
      match findIdxFrom (fun c => c = c0) val 1 with
      | none => val
      | some qci =>
        match findIdxFrom (fun c => c = '#') val qci with
        | none => val
        | some ci => pyRstripL (val.take ci)

/-- The comment-stripping pass of `Cnf._cleanup_value` (mycnf.py:161-162):
applied only when the value contains `#`. -/
def commentPass (v : List Char) : List Char :=
  if v.contains '#' then cleanupComment v else v

/-- Embeds `Cnf._cleanup_value` (mycnf.py:148-166): `None` becomes the empty string,
comments are stripped first, then one layer of matching wrapping quotes. -/
def cleanupValueL (val : Option (List Char)) : List Char :=
  match val with
  | none => []
  | some v =>
    if 2 ≤ (commentPass v).length ∧ (commentPass v).head? = (commentPass v).getLast? ∧
        ((commentPass v).head? = some '"' ∨ (commentPass v).head? = some '\'') then
      ((commentPass v).drop 1).dropLast
    else commentPass v

/-- Embeds `Cnf._cleanup_value` on `String` values. -/
def cleanupValue (val : Option String) : String :=
  String.mk (cleanupValueL (val.map String.toList))

/-! ## `wmfdb/mycnf.py`: the `Cnf` class -/

/-- Python `str.lower()` (ASCII case folding suffices for the values used). -/
def pyLower (s : String) : String := String.mk (s.toList.map Char.toLower)

/-- Embeds `Cnf._normalize_keys` (mycnf.py:64-77): `key.replace("-", "_")`. -/
def normalizeKeys (key : String) : String :=
  String.mk (key.toList.map (fun c => if c = '-' then '_' else c))

/-- Helper for Python `float()`: parse the part after the mantissa's `e`/`E`
as a signed integer exponent. -/
def pyExp? : List Char → Option Int
  | [] => some 0
  | _ :: es =>
    match es with
    | '+' :: ds => (pyDigits ds).map Int.ofNat
    | '-' :: ds => (pyDigits ds).map (fun n => -(Int.ofNat n : Int))
    | ds => (pyDigits ds).map Int.ofNat

/-- Python `float(s)` on decimal literals (sign, digits, optional fraction,
optional exponent), with the value modelled exactly as a rational. The
special forms `inf`/`nan` are out of the modelled domain and map to `none`,
as do all strings Python rejects. -/
def pyFloat? (s : String) : Option Rat :=
  let (sgn, body) : Rat × List Char :=
    match pyStripL s.toList with
    | '+' :: cs => (1, cs)
    | '-' :: cs => (-1, cs)
    | cs => (1, cs)
  let mant := body.takeWhile (fun c => ¬ (c = 'e' ∨ c = 'E'))
  let rest := body.dropWhile (fun c => ¬ (c = 'e' ∨ c = 'E'))
  match pyExp? rest with
  | none => none
  | some e =>
    let ip := mant.takeWhile (fun c => c ≠ '.')
    let dotFrac := mant.dropWhile (fun c => c ≠ '.')
    match dotFrac with
    | [] => (pyDigits ip).map (fun n => sgn * (n : Rat) * (10 : Rat) ^ e)
    | _ :: fp =>
      if fp.contains '.' then none
      else
        let ipVal : Option Nat :=
          if ip.isEmpty then (if fp.isEmpty then none else some 0) else pyDigits ip
        let fpVal : Option Nat :=
          if fp.isEmpty then (if ip.isEmpty then none else some 0) else pyDigits fp
        match ipVal, fpVal with
        | some i, some f =>
          let digits := (fp.filter Char.isDigit).length
          some (sgn * ((i : Rat) + (f : Rat) / ((10 : Rat) ^ digits)) * (10 : Rat) ^ e)
        | _, _ => none

/-- The state of a `Cnf` instance (mycnf.py:40-62): the section search order
(`_section_order`) and the contents of the underlying `ConfigParser`
(`_parser`): section name → (normalized key → optional raw value).
Keys are normalized with `_normalize_keys` on storage (`optionxform`), so the
store holds normalized keys; an entry of `none` is a valueless key
(`allow_no_value=True`). -/
structure Cnf where
  sectionOrder : List String
  store : List (String × List (String × Option String))

/-- Embeds `ConfigParser` lookup used by `Cnf._get`: `has_option`/`get` combined.
`some v` means the (normalized) key exists in the section with raw value `v`. -/
def Cnf.getOpt (c : Cnf) (sec key : String) : Option (Option String) :=
  (c.store.lookup sec).bind (fun kvs => kvs.lookup (normalizeKeys key))

/-- The search loop of `Cnf._get` (mycnf.py:133-146) over a list of sections. -/
def Cnf.getSearch (c : Cnf) (key : String) : List String → String × String × Bool
  | [] => ("", "", false)
  | sec :: rest =>
    match c.getOpt sec key with
    | some v => (sec, cleanupValue v, true)
    | none => c.getSearch key rest

/-- Embeds `Cnf._get` (mycnf.py:133-146): search `_section_order` for the key;
return (section, cleaned value, found). -/
def Cnf.getKey (c : Cnf) (key : String) : String × String × Bool :=
  c.getSearch key c.sectionOrder

/-- Embeds `Cnf.get_str` (mycnf.py:211-223). -/
def Cnf.get_str (c : Cnf) (key : String) : Option String :=
  let (_, val, ok) := c.getKey key
  if ok then some val else none

/-- Embeds `Cnf.get_int` (mycnf.py:225-243): `WmfdbValueError` is modelled as
`Except.error` carrying the message. -/
def Cnf.get_int (c : Cnf) (key : String) : Except String (Option Int) :=
  let (sec, val, ok) := c.getKey key
  if ok then
    match pyInt? val with
    | some n => .ok (some n)
    | none => .error s!"Mysql config value [{sec}]{key} has non-integer value: \"{val}\""
  else .ok none

/-- Embeds `Cnf.get_float` (mycnf.py:245-263). -/
def Cnf.get_float (c : Cnf) (key : String) : Except String (Option Rat) :=
  let (sec, val, ok) := c.getKey key
  if ok then
    match pyFloat? val with
    | some q => .ok (some q)
    | none => .error s!"Mysql config value [{sec}]{key} has non-float value: \"{val}\""
  else .ok none

/-- Embeds `Cnf.get_bool` (mycnf.py:265-286). -/
def Cnf.get_bool (c : Cnf) (key : String) : Except String (Option Bool) :=
  let (sec, val, ok) := c.getKey key
  if ok then
    if ["true", "1", "on"].contains (pyLower val) then .ok (some true)
    else if ["false", "0", "off"].contains (pyLower val) then .ok (some false)
    else .error s!"Mysql config value [{sec}]{key} has non-boolean value: \"{val}\""
  else .ok none

/-- Embeds `Cnf.get_no_value` (mycnf.py:288-304). -/
def Cnf.get_no_value (c : Cnf) (key : String) : Option Bool :=
  let (_, _, ok) := c.getKey key
  if ok then some true else none

/-- A Python value stored in the kwargs dict built by `pymysql_conn_args`:
the getters produce `str`, `int`, `float` or `bool` values. -/
inductive Val where
  | str (s : String)
  | int (n : Int)
  | float (q : Rat)
  | bool (b : Bool)
deriving DecidableEq

/-- The kwargs dict of `pymysql_conn_args`, as an association list in
insertion order (Python dicts preserve insertion order). -/
abbrev Kwargs := List (String × Val)

/-- Embeds `kwargs[arg] = val`: replace in place if present, else append. -/
def kwInsert (k : Kwargs) (key : String) (v : Val) : Kwargs :=
  if (List.lookup key k).isSome then
    k.map (fun p => if p.1 = key then (key, v) else p)
  else k ++ [(key, v)]

/-- Embeds `key in kwargs` / `kwargs[key]`. -/
def kwLookup (k : Kwargs) (key : String) : Option Val :=
  List.lookup key k

/-- The inner `_set_arg` closure of `Cnf.pymysql_conn_args`
(mycnf.py:315-329): if `key` is already in kwargs do nothing; otherwise read
`key` with the getter and, when a value is found, store it under `arg`.
The defaults `get = get or self.get_str` and `arg = arg or key` are applied
at each call site below. -/
def setArg (c : Cnf) (kwargs : Kwargs) (key arg : String)
    (get : Cnf → String → Except String (Option Val)) : Except String Kwargs :=
  if (kwLookup kwargs key).isSome then .ok kwargs
  else
    match get c key with
    | .error e => .error e
    | .ok none => .ok kwargs
    | .ok (some v) => .ok (kwInsert kwargs arg v)

/-- Embeds `Cnf.get_str` lifted to `Val` (dynamically-typed return of `_set_arg`). -/
def getStrV (c : Cnf) (key : String) : Except String (Option Val) :=
  .ok ((c.get_str key).map Val.str)

/-- Embeds `Cnf.get_int` lifted to `Val`. -/
def getIntV (c : Cnf) (key : String) : Except String (Option Val) :=
  (c.get_int key).map (fun o => o.map Val.int)

/-- Embeds `Cnf.get_float` lifted to `Val`. -/
def getFloatV (c : Cnf) (key : String) : Except String (Option Val) :=
  (c.get_float key).map (fun o => o.map Val.float)

/-- Embeds `Cnf.get_no_value` lifted to `Val`. -/
def getNoValueV (c : Cnf) (key : String) : Except String (Option Val) :=
  .ok ((c.get_no_value key).map Val.bool)

/-- Embeds `Cnf.pymysql_conn_args` (mycnf.py:306-349): build pymysql connection
arguments from the config, with the caller's kwargs never overwritten for
keys already present (checked by `_set_arg` against the config key name). -/
def Cnf.pymysql_conn_args (c : Cnf) (kwargs : Kwargs) : Except String Kwargs := do
  let k1 ← setArg c kwargs "user" "user" getStrV
  let k2 ← setArg c k1 "password" "password" getStrV
  let k3 ← setArg c k2 "host" "host" getStrV
  let k4 ← setArg c k3 "database" "database" getStrV
  let k5 ←
    if kwLookup k4 "host" = none ∨ kwLookup k4 "host" = some (Val.str "localhost") then
      setArg c k4 "socket" "unix_socket" getStrV
    else
      setArg c k4 "port" "port" getIntV
  let k6 ← setArg c k5 "default_character_set" "charset" getStrV
  let k7 ← setArg c k6 "connect_timeout" "connect_timeout" getFloatV
  let k8 ← setArg c k7 "max_allowed_packet" "max_allowed_packet" getStrV
  let k9 ← setArg c k8 "bind_address" "bind_address" getStrV
  let k10 ← setArg c k9 "ssl_ca" "ssl_ca" getStrV
  let k11 ← setArg c k10 "ssl_cert" "ssl_cert" getStrV
  let k12 ← setArg c k11 "ssl_key" "ssl_key" getStrV
  let k13 ← setArg c k12 "ssl_verify_server_cert" "ssl_verify_cert" getNoValueV
  let k14 ← setArg c k13 "ssl_verify_server_cert" "ssl_verify_identity" getNoValueV
  return k14

/-! ## `wmfdb/section.py` -/

/-- Constant `DEFAULT_SECTION` (section.py:22). -/
def DEFAULT_SECTION : String := "default"

/-- Constant `DEFAULT_PORT` (section.py:23). -/
def DEFAULT_PORT : Int := 3306

/-- Constant `DEFAULT_PROM_PORT` (section.py:24). -/
def DEFAULT_PROM_PORT : Int := 9104

/-- A validated section: the state of a `Section` instance (section.py:152). -/
structure Section where
  name : String
  port : Int
deriving DecidableEq

/-- Embeds `Section.__init__` (section.py:155-181): validate name and port;
an `Except.error` models the raised `WmfdbValueError` (no partially
constructed object exists on failure). -/
def mkSection (name : String) (port : Int) : Except String Section :=
  if (pyStrip name).isEmpty then
    .error s!"Empty/blank section name \"{name}\""
  else if port ≤ 0 then
    .error s!"Invalid port number, {port}"
  else if name = DEFAULT_SECTION ∧ port ≠ DEFAULT_PORT then
    .error s!"Section {name} must have default port ({DEFAULT_PORT}), not {port}"
  else if port = DEFAULT_PORT ∧ name ≠ DEFAULT_SECTION then
    .error s!"Port {port} must have {DEFAULT_SECTION} section name, not {name}"
  else .ok ⟨name, port⟩

/-- Python dict assignment `d[key] = v` on an association list: replace the
value in place if the key exists, else append. -/
def alInsert {α β : Type} [DecidableEq α] (l : List (α × β)) (key : α) (v : β) :
    List (α × β) :=
  if (l.lookup key).isSome then l.map (fun p => if p.1 = key then (key, v) else p)
  else l ++ [(key, v)]

/-- The state of a `SectionMap` instance (section.py:40-41): the `_section`
(name → port) and `_port` (port → name) dicts. -/
structure SectionMap where
  sectionTbl : List (String × Int)
  portTbl : List (Int × String)

/-- Message template of section.py:85 (blank section entry at a line). -/
def blankSecMsg (lineNum : Nat) : String :=
  s!"Line {lineNum} of config has a blank section entry"

/-- Message template of section.py:89-91 (invalid port number at a line,
keeping the source's wording). -/
def badPortMsg (lineNum : Nat) (portStr : String) : String :=
  s!"Line {lineNum} of config has a invalid port number: {portStr}"

/-- Embeds the loop body of `SectionMap._parse_cfg` (section.py:71-93) over the
records produced by `csv.reader`, each modelled as a (name, port-string)
pair of fields. `n` counts the records already consumed, so for the current
record `reader.line_num` is `n + 1` (each record comes from one line). -/
def parseCfgGo (n : Nat) (secTbl : List (String × Int)) (portTbl : List (Int × String)) :
    List (String × String) → Except String (List (String × Int) × List (Int × String))
  | [] => .ok (secTbl, portTbl)
  | (sec, portStr) :: rest =>
    -- line_num = reader.line_num - 1
    if (pyStrip sec).isEmpty then
      .error (blankSecMsg (n + 1 - 1))
    else
      match pyInt? portStr with
      | none => .error (badPortMsg (n + 1 - 1) portStr)
      | some port =>
        parseCfgGo (n + 1) (alInsert secTbl sec port) (alInsert portTbl port sec) rest

/-- Embeds `SectionMap._parse_cfg` (section.py:71-93), starting from the empty
dicts of a fresh instance (section.py:40-41). -/
def parseCfg (records : List (String × String)) :
    Except String (List (String × Int) × List (Int × String)) :=
  parseCfgGo 0 [] [] records

/-- Embeds `SectionMap.by_name` (section.py:111-129). -/
def SectionMap.by_name (sm : SectionMap) (name : String) : Except String Section :=
  if name = DEFAULT_SECTION then mkSection DEFAULT_SECTION DEFAULT_PORT
  else
    match sm.sectionTbl.lookup name with
    | none => .error s!"Invalid section name {name}"
    | some port => mkSection name port

/-! ## Python `ipaddress.ip_address` (stdlib collaborator of `addr.resolve`)

The textual address grammar of Python's `ipaddress` module, needed because
`addr.resolve` branches on whether its argument parses as an IP literal. -/

/-- Python `str.split(sep)` semantics on a character list: empty pieces are
kept, and the empty string splits to one empty piece. -/
def splitOnChar (sep : Char) : List Char → List (List Char)
  | [] => [[]]
  | c :: cs =>
    let r := splitOnChar sep cs
    if c = sep then [] :: r
    else
      match r with
      | [] => [[c]]
      | h :: t => (c :: h) :: t

/-- Embeds `ipaddress._parse_octet`: a non-empty run of at most 3 ASCII
digits, no leading zero (unless the octet is exactly "0"), value at most
255. -/
def parseOctet (cs : List Char) : Option Nat :=
  if cs.isEmpty then none
  else if ¬ cs.all Char.isDigit then none
  else if 3 < cs.length then none
  else if 1 < cs.length ∧ cs.head? = some '0' then none
  else
    let n := cs.foldl (fun a c => a * 10 + (c.toNat - 48)) 0
    if 255 < n then none else some n

/-- Embeds `ipaddress._ip_int_from_string` for IPv4: exactly four
dot-separated octets. -/
def pyIPv4? (s : List Char) : Option Nat :=
  match splitOnChar '.' s with
  | [a, b, c, d] =>
    match parseOctet a, parseOctet b, parseOctet c, parseOctet d with
    | some x, some y, some z, some w => some (((x * 256 + y) * 256 + z) * 256 + w)
    | _, _, _, _ => none
  | _ => none

/-- ASCII hex digit (the `_HEX_DIGITS` set of `ipaddress`). -/
def isHexDigit (c : Char) : Bool :=
  c.isDigit ∨ ('a' ≤ c ∧ c ≤ 'f') ∨ ('A' ≤ c ∧ c ≤ 'F')

/-- Numeric value of an ASCII hex digit. -/
def hexVal (c : Char) : Nat :=
  if c.isDigit then c.toNat - 48
  else if 'a' ≤ c ∧ c ≤ 'f' then c.toNat - 87
  else c.toNat - 55

/-- Embeds `ipaddress._parse_hextet`: 1 to 4 hex digits. -/
def parseHextet (cs : List Char) : Option Nat :=
  if cs.isEmpty then none
  else if ¬ cs.all isHexDigit then none
  else if 4 < cs.length then none
  else some (cs.foldl (fun a c => a * 16 + hexVal c) 0)

/-- Accumulate hextets into an address value (the `ip_int << 16 | hextet`
loops of `ipaddress._ip_int_from_string`). -/
def accHextets (acc : Option Nat) (ps : List (List Char)) : Option Nat :=
  ps.foldl
    (fun a p =>
      match a, parseHextet p with
      | some n, some h => some (n * 65536 + h)
      | _, _ => none)
    acc

/-- Embeds `ipaddress._ip_int_from_string` for IPv6 (without scope): split on
`:`, fold an embedded trailing IPv4 into two hextets, locate the single
`::` gap, and check the part-count rules. -/
def pyIPv6Int? (s : List Char) : Option Nat :=
  let parts0 := splitOnChar ':' s
  if parts0.length < 3 then none
  else
    let lastPart := parts0.getLastD []
    let partsWithV4 : Option (List (List Char)) :=
      if lastPart.contains '.' then
        match pyIPv4? lastPart with
        | none => none
        | some v4 =>
          some (parts0.dropLast ++
            [Nat.toDigits 16 ((v4 >>> 16) % 65536), Nat.toDigits 16 (v4 % 65536)])
      else some parts0
    match partsWithV4 with
    | none => none
    | some parts =>
      if 9 < parts.length then none
      else
        let innerEmpties :=
          (List.range parts.length).filter
            (fun i => 0 < i ∧ i + 1 < parts.length ∧ (parts.getD i [' ']).isEmpty)
        match innerEmpties with
        | _ :: _ :: _ => none
        | [] =>
          if parts.length ≠ 8 then none
          else if (parts.headD []).isEmpty then none
          else if (parts.getLastD []).isEmpty then none
          else accHextets (some 0) parts
        | [skipIdx] =>
          let partsHi := if (parts.headD [' ']).isEmpty then skipIdx - 1 else skipIdx
          if (parts.headD [' ']).isEmpty ∧ partsHi ≠ 0 then none
          else
            let partsLo0 := parts.length - skipIdx - 1
            let partsLo := if (parts.getLastD [' ']).isEmpty then partsLo0 - 1 else partsLo0
            if (parts.getLastD [' ']).isEmpty ∧ partsLo ≠ 0 then none
            else if partsHi + partsLo ≥ 8 then none
            else
              let partsSkipped := 8 - (partsHi + partsLo)
              let hi := accHextets (some 0) (parts.take partsHi)
              match hi with
              | none => none
              | some hiv =>
                accHextets (some (hiv * 65536 ^ partsSkipped)) (parts.drop (parts.length - partsLo))

/-- Embeds the scope handling of `IPv6Address.__init__` (Python 3.9+):
`addr%scope` where the scope id is non-empty and has no further `%`. -/
def pyIPv6? (s : List Char) : Option (Nat × Option String) :=
  if s.contains '%' then
    let a := s.takeWhile (fun c => c ≠ '%')
    let sc := (s.dropWhile (fun c => c ≠ '%')).tail
    if sc.isEmpty ∨ sc.contains '%' then none
    else (pyIPv6Int? a).map (fun n => (n, some (String.mk sc)))
  else (pyIPv6Int? s).map (fun n => (n, none))

/-- An `ipaddress.IPv4Address` or `IPv6Address` value. -/
inductive IPAddr where
  | v4 (n : Nat)
  | v6 (n : Nat) (scope : Option String)
deriving DecidableEq

/-- Embeds `ipaddress.ip_address` on strings: try IPv4 first, then IPv6;
`none` models the `ValueError` for non-IP strings. -/
def ipAddress? (s : String) : Option IPAddr :=
  match pyIPv4? s.toList with
  | some n => some (.v4 n)
  | none => (pyIPv6? s.toList).map (fun p => .v6 p.1 p.2)

/-- Embeds `is_loopback`: IPv4 `127.0.0.0/8`; IPv6 `::1`. -/
def IPAddr.isLoopback : IPAddr → Bool
  | .v4 n => n / 16777216 = 127
  | .v6 n _ => n = 1

/-- The eight 16-bit groups of an IPv6 value, most significant first. -/
def v6Hextets (n : Nat) : List Nat :=
  (List.range 8).map (fun i => (n / 65536 ^ (7 - i)) % 65536)

/-- Length of the zero run starting at index `i`. -/
def zeroRunAt (hx : List Nat) (i : Nat) : Nat :=
  ((hx.drop i).takeWhile (fun h => h = 0)).length

/-- The leftmost longest run of zero hextets (start, length), as located by
`ipaddress._compress_hextets`. -/
def bestZeroRun (hx : List Nat) : Nat × Nat :=
  (List.range hx.length).foldl
    (fun best i =>
      let l :=
        if hx.getD i 1 = 0 ∧ (i = 0 ∨ hx.getD (i - 1) 1 ≠ 0) then zeroRunAt hx i else 0
      if best.2 < l then (i, l) else best)
    (0, 0)

/-- Embeds `IPv6Address` compressed text (`str(ip)` without scope): hex
groups joined by `:` with the longest zero run (of length at least 2)
collapsed to `::`. -/
def v6Str (n : Nat) : String :=
  let hx := v6Hextets n
  let (s, l) := bestZeroRun hx
  if l ≤ 1 then
    String.intercalate ":" (hx.map (fun h => String.mk (Nat.toDigits 16 h)))
  else
    let pre := (hx.take s).map (fun h => String.mk (Nat.toDigits 16 h))
    let post := (hx.drop (s + l)).map (fun h => String.mk (Nat.toDigits 16 h))
    let pre2 := if pre.isEmpty then [""] else pre
    let post2 := if post.isEmpty then [""] else post
    String.intercalate ":" (pre2 ++ [""] ++ post2)

/-- Embeds `str(ip)` / `ip.compressed` for either address kind. -/
def IPAddr.toStr : IPAddr → String
  | .v4 n =>
    let a := n / 16777216 % 256
    let b := n / 65536 % 256
    let c := n / 256 % 256
    let d := n % 256
    s!"{a}.{b}.{c}.{d}"
  | .v6 n sc =>
    match sc with
    | none => v6Str n
    | some s => v6Str n ++ "%" ++ s

/-! ## `wmfdb/addr.py` -/

/-- Embeds `addr._resolve_ip` (addr.py:32-49): loopback addresses resolve to
`localhost`; otherwise a reverse-DNS query (`socket.gethostbyaddr`, passed
in as the environment function `dns`, whose `Except.error` carries the
`socket.herror` text) must succeed. -/
def resolveIp (dns : String → Except String String) (ip : IPAddr) : Except String String :=
  if ip.isLoopback then .ok "localhost"
  else
    match dns ip.toStr with
    | .ok host => .ok host
    | .error e =>
      let a := ip.toStr
      .error s!"Unable to resolve ip address: '{a}': {e}"

/-- The datacenter table of `addr._dc_map` (addr.py:65-72). -/
def dcs : List (Nat × String) :=
  [(1, "eqiad"), (2, "codfw"), (3, "esams"), (4, "ulsfo"), (5, "eqsin"), (6, "drmrs")]

/-- ASCII letter, the `[a-zA-Z]` class of the `_dc_map` regex (codepoints
97-122 and 65-90). -/
def isAsciiAlpha (c : Char) : Bool :=
  (97 ≤ c.toNat ∧ c.toNat ≤ 122) ∨ (65 ≤ c.toNat ∧ c.toNat ≤ 90)

/-- Message template of addr.py:76 (no datacenter id pattern match). -/
def noDcMsg (host : String) : String :=
  s!"No datacenter ID detected in {host}"

/-- Message template of addr.py:79 (unknown datacenter id). -/
def unknownDcMsg (dcId : Nat) (host : String) : String :=
  s!"Unknown datacenter ID '{dcId}' (from '{host}')"

/-- Embeds `addr._dc_map` (addr.py:52-80): match
`^[a-zA-Z]+(?P<dc_id>\d)\d{3}$` (the maximal ASCII-letter prefix must be
followed by exactly four digits), then look the leading digit up in `dcs`.
Digits are modelled as ASCII (`\d` also matches other Unicode digits in
Python, which no caller uses). -/
def dcMap (host : String) : Except String String :=
  match host.toList.takeWhile isAsciiAlpha, host.toList.dropWhile isAsciiAlpha with
  | _ :: _, [d1, d2, d3, d4] =>
    if d1.isDigit ∧ d2.isDigit ∧ d3.isDigit ∧ d4.isDigit then
      match dcs.lookup (d1.toNat - 48) with
      | none => .error (unknownDcMsg (d1.toNat - 48) host)
      | some dc => .ok (host ++ "." ++ dc ++ ".wmnet")
    else .error (noDcMsg host)
  | _, _ => .error (noDcMsg host)

/-- Embeds `addr.resolve` (addr.py:12-29): IP literals go through
`_resolve_ip`, everything else through `_dc_map`. -/
def resolve (dns : String → Except String String) (host : String) : Except String String :=
  match ipAddress? host with
  | none => dcMap host
  | some ip => resolveIp dns ip

/-- Message template of addr.py:120 (malformed `[ipv6]:port` syntax). -/
def badBracketMsg (addr : String) : String :=
  s!"Invalid [ipv6]:port format: '{addr}'"

/-- Word character of the `\w+` port group in the `[ipv6]:port` regex
(addr.py:117), modelled over ASCII. -/
def isWordChar (c : Char) : Bool :=
  c.isAlphanum ∨ c = '_'

/-- Embeds the regex match `^\[(?P<host>[^]]+)\](?::(?P<port>\w+))?$`
(addr.py:117-118): the host group is everything before the first `]` (it
must be non-empty), optionally followed by `:` and a non-empty word-char
port group reaching the end of the string. -/
def bracketMatch (l : List Char) : Option (List Char × Option (List Char)) :=
  match l with
  | '[' :: rest =>
    let host := rest.takeWhile (fun c => c ≠ ']')
    if host.isEmpty then none
    else
      match rest.dropWhile (fun c => c ≠ ']') with
      | [] => none
      | _ :: tail =>
        match tail with
        | [] => some (host, none)
        | ':' :: ps =>
          if ¬ ps.isEmpty ∧ ps.all isWordChar then some (host, some ps) else none
        | _ => none
  | _ => none

/-- Embeds the tail of `addr.split` (addr.py:127-133): an empty port string
keeps the default port; a numeric port string is parsed with `int`; anything
else is resolved as a section alias via `SectionMap.by_name`, whose error
propagates unchanged. -/
def splitFinish (host portStr : String) (sm : SectionMap) (defPort : Int) :
    Except String (String × Int) :=
  if portStr.isEmpty then .ok (host, defPort)
  else
    match pyInt? portStr with
    | some n => .ok (host, n)
    | none => (sm.by_name portStr).map (fun s => (host, s.port))

/-- Embeds `addr.split` (addr.py:83-133): more than one `:` selects the IPv6
branch (bracketed syntax must match the regex), exactly one `:` splits host
from port string, no `:` leaves the port string empty. -/
def split (addr : String) (sm : SectionMap) (defPort : Int) : Except String (String × Int) :=
  let cs := addr.toList
  if 1 < cs.count ':' then
    if cs.head? = some '[' then
      match bracketMatch cs with
      | none => .error (badBracketMsg addr)
      | some (host, port?) =>
        splitFinish (String.mk host)
          (match port? with
           | none => ""
           | some p => String.mk p)
          sm defPort
    else splitFinish addr "" sm defPort
  else if cs.contains ':' then
    splitFinish (String.mk (cs.takeWhile (fun c => c ≠ ':')))
      (String.mk ((cs.dropWhile (fun c => c ≠ ':')).tail)) sm defPort
  else splitFinish addr "" sm defPort

/-! ## Theorems -/

/-- C3: for every string value that contains `#`, starts with a quote
character `q` (single or double quote) and contains at least one later
occurrence of `q`, comment stripping returns the value truncated at the
first `#` at or after the index of the second occurrence of `q` with
trailing whitespace stripped, when such a `#` exists, and the value
unchanged otherwise. -/
theorem cleanup_comment_quoted (v : List Char) (q : Char)
    (hq : q = '"' ∨ q = '\'')
    (hhead : v.head? = some q)
    (hhash : v.contains '#' = true)
    (hcount : 2 ≤ v.count q)
    (sqi : Nat) (hsqi : findIdxFrom (fun c => c = q) v 1 = some sqi) :
    (∀ ci, findIdxFrom (fun c => c = '#') v sqi = some ci →
        cleanupComment v = pyRstripL (v.take ci)) ∧
    (findIdxFrom (fun c => c = '#') v sqi = none → cleanupComment v = v) := by
  cases v with
  | nil => simp at hhead
  | cons c0 rest =>
    have hc0 : c0 = q := by simpa using hhead
    subst hc0
    have hcount1 : ¬ (c0 :: rest).count c0 = 1 := by omega
    have hcond : ¬ (¬ (c0 = '"' ∨ c0 = '\'') ∨ (c0 :: rest).count c0 = 1) := by
      exact not_or.mpr ⟨not_not_intro hq, hcount1⟩
    constructor
    · intro ci hci
      simp only [cleanupComment]
      rw [if_neg (not_not_intro hhash), if_neg hcond, hsqi]
      simp only [hci]
    · intro hci
      simp only [cleanupComment]
      rw [if_neg (not_not_intro hhash), if_neg hcond, hsqi]
      simp only [hci]

/-- Witness for C3 at a concrete quoted value with a comment after the
closing quote. -/
theorem cleanup_comment_quoted_w :
    cleanupComment ("\"a#b\"c #d".toList) = "\"a#b\"c".toList := by
  have h :=
    (cleanup_comment_quoted ("\"a#b\"c #d".toList) '"' (Or.inl rfl) (by decide)
      (by decide) (by decide) 4 (by decide)).1 7 (by decide)
  rw [h]
  decide

/-- C4: value cleanup strips exactly one layer of wrapping quotes and runs
comment stripping before quote stripping: whenever the comment-stripped
value has length at least 2 and equal first and last characters that are a
single or double quote, exactly one character is removed from each end
(never recursively); consequently cleaning `"value # not a comment"` yields
`value # not a comment`, while cleaning `value # real comment` yields
`value`. -/
theorem cleanup_value_spec (v : List Char) :
    ((2 ≤ (commentPass v).length ∧ (commentPass v).head? = (commentPass v).getLast? ∧
        ((commentPass v).head? = some '"' ∨ (commentPass v).head? = some '\'')) →
      cleanupValueL (some v) = ((commentPass v).drop 1).dropLast) ∧
    cleanupValueL (some ("\"value # not a comment\"".toList)) =
      "value # not a comment".toList ∧
    cleanupValueL (some ("value # real comment".toList)) = "value".toList := by
  refine ⟨fun h => ?_, by decide, by decide⟩
  simp only [cleanupValueL]
  rw [if_pos h]

/-- Witness for C4 at a concrete singly-quoted value. -/
theorem cleanup_value_spec_w :
    cleanupValueL (some ("'abc'".toList)) = "abc".toList := by
  have h := (cleanup_value_spec ("'abc'".toList)).1 (by decide)
  rw [h]
  decide

/-- Helper: success condition of `Section.__init__`. -/
theorem mkSection_ok_aux (name : String) (port : Int) :
    (∃ s, mkSection name port = Except.ok s) ↔
      ((pyStrip name).isEmpty = false ∧ 0 < port ∧
        (name = DEFAULT_SECTION ↔ port = DEFAULT_PORT)) := by
  unfold mkSection
  split_ifs with h1 h2 h3 h4
  · constructor
    · rintro ⟨s, hs⟩; simp at hs
    · rintro ⟨he, -, -⟩; simp [h1] at he
  · constructor
    · rintro ⟨s, hs⟩; simp at hs
    · rintro ⟨-, hp, -⟩; exact absurd hp (by omega)
  · constructor
    · rintro ⟨s, hs⟩; simp at hs
    · rintro ⟨-, -, hiff⟩; exact absurd (hiff.mp h3.1) h3.2
  · constructor
    · rintro ⟨s, hs⟩; simp at hs
    · rintro ⟨-, -, hiff⟩; exact absurd (hiff.mpr h4.1) h4.2
  · constructor
    · intro _
      push_neg at h3 h4
      refine ⟨?_, by omega, h3, h4⟩
      cases hb : (pyStrip name).isEmpty
      · rfl
      · exact absurd hb h1
    · intro _
      exact ⟨⟨name, port⟩, rfl⟩

/-- C8: Section construction succeeds exactly when the name is non-blank
after trimming, the port is positive, and the name is `"default"` iff the
port is 3306; in particular `Section("default", 3306)` always succeeds,
`Section("default", X)` fails for every `X ≠ 3306`, and `Section(Y, 3306)`
fails for every `Y ≠ "default"` (failures carry no constructed value). -/
theorem mkSection_spec (name : String) (port : Int) :
    ((∃ s, mkSection name port = Except.ok s) ↔
      ((pyStrip name).isEmpty = false ∧ 0 < port ∧
        (name = DEFAULT_SECTION ↔ port = DEFAULT_PORT))) ∧
    (∃ s, mkSection DEFAULT_SECTION DEFAULT_PORT = Except.ok s) ∧
    (port ≠ DEFAULT_PORT → ¬ ∃ s, mkSection DEFAULT_SECTION port = Except.ok s) ∧
    (name ≠ DEFAULT_SECTION → ¬ ∃ s, mkSection name DEFAULT_PORT = Except.ok s) := by
  refine ⟨mkSection_ok_aux name port, ⟨⟨DEFAULT_SECTION, DEFAULT_PORT⟩, rfl⟩, ?_, ?_⟩
  · intro h hex
    obtain ⟨-, -, hiff⟩ := (mkSection_ok_aux DEFAULT_SECTION port).mp hex
    exact h (hiff.mp rfl)
  · intro h hex
    obtain ⟨-, -, hiff⟩ := (mkSection_ok_aux name DEFAULT_PORT).mp hex
    exact h (hiff.mpr rfl)

/-- Witness for C8: a valid section, a wrong default-port pairing, and a
non-default name on port 3306. -/
theorem mkSection_spec_w :
    (∃ s, mkSection "s1" 10110 = Except.ok s) ∧
    (¬ ∃ s, mkSection "default" 10111 = Except.ok s) ∧
    (¬ ∃ s, mkSection "s1" 3306 = Except.ok s) :=
  ⟨(mkSection_spec "s1" 10110).1.mpr ⟨by decide, by decide, by decide⟩,
   (mkSection_spec "x" 10111).2.2.1 (by decide),
   (mkSection_spec "s1" 10110).2.2.2 (by decide)⟩

/-- Processing a prefix of valid records advances `_parse_cfg` to the rest of
the records, with the record counter advanced by the prefix length. -/
theorem parseCfgGo_append (pre rs : List (String × String)) :
    ∀ (n : Nat) (s : List (String × Int)) (p : List (Int × String)),
      (∀ r ∈ pre, (pyStrip r.1).isEmpty = false ∧ (pyInt? r.2).isSome = true) →
      ∃ s2 p2, parseCfgGo n s p (pre ++ rs) = parseCfgGo (n + pre.length) s2 p2 rs := by
  induction pre with
  | nil => intro n s p _; exact ⟨s, p, by simp⟩
  | cons r t ih =>
    intro n s p h
    cases r with
    | mk sec portStr =>
      obtain ⟨hname, hport⟩ := h (sec, portStr) (by simp)
      obtain ⟨pv, hpv⟩ := Option.isSome_iff_exists.mp hport
      obtain ⟨s2, p2, hrec⟩ :=
        ih (n + 1) (alInsert s sec pv) (alInsert p pv sec)
          (fun r hr => h r (by simp [hr]))
      refine ⟨s2, p2, ?_⟩
      simp only [List.cons_append, parseCfgGo]
      rw [if_neg (by simp [hname]), hpv]
      simp only [List.length_cons]
      rw [show n + (t.length + 1) = n + 1 + t.length by omega]
      exact hrec

/-- C2 amended: the record index cited in `_parse_cfg` errors is the number
of records before the offending one (i.e. the 0-based index, one less than
the claim's 1-based record number): with all earlier records valid, a blank
name in the record preceded by `pre` fails citing `pre.length`, and so does
a non-integer port field. -/
theorem parse_cfg_error_line (pre : List (String × String)) (sec portStr : String)
    (rest : List (String × String))
    (hpre : ∀ r ∈ pre, (pyStrip r.1).isEmpty = false ∧ (pyInt? r.2).isSome = true) :
    ((pyStrip sec).isEmpty = true →
      parseCfg (pre ++ (sec, portStr) :: rest) = Except.error (blankSecMsg pre.length)) ∧
    ((pyStrip sec).isEmpty = false → pyInt? portStr = none →
      parseCfg (pre ++ (sec, portStr) :: rest) =
        Except.error (badPortMsg pre.length portStr)) := by
  obtain ⟨s2, p2, heq⟩ := parseCfgGo_append pre ((sec, portStr) :: rest) 0 [] [] hpre
  constructor
  · intro hb
    unfold parseCfg
    rw [heq]
    simp only [parseCfgGo]
    rw [if_pos hb]
    simp
  · intro hb hp
    unfold parseCfg
    rw [heq]
    simp only [parseCfgGo]
    rw [if_neg (by simp [hb]), hp]
    simp

/-- Witness for C2's amended theorem: a blank name as the second record is
reported as "Line 1". -/
theorem parse_cfg_error_line_w :
    parseCfg [("f0", " 10110"), (" ", " 10111")] = Except.error (blankSecMsg 1) := by
  have h := (parse_cfg_error_line [("f0", " 10110")] " " " 10111" [] (by decide)).1 (by decide)
  exact h

/-- C2 counterexample: the blank-name record at 1-based record index 2 (first
record valid) is reported as "Line 1", not "Line 2" as the claim states, and
the same holds for a non-integer port field. -/
theorem parse_cfg_line_cited_cex :
    parseCfg [("f0", " 10110"), (" ", " 10111"), ("f2", " 10112")] =
      Except.error (blankSecMsg 1) ∧
    parseCfg [("f0", " 10110"), (" ", " 10111"), ("f2", " 10112")] ≠
      Except.error (blankSecMsg 2) ∧
    parseCfg [("f0", " 10110"), ("f1", " 1011a"), ("f2", " 10112")] =
      Except.error (badPortMsg 1 " 1011a") ∧
    parseCfg [("f0", " 10110"), ("f1", " 1011a"), ("f2", " 10112")] ≠
      Except.error (badPortMsg 2 " 1011a") := by
  refine ⟨by decide, by decide, by decide, by decide⟩

/-- Helper: `takeWhile` passes over a prefix all of whose elements satisfy
the predicate. -/
theorem takeWhile_append_all {p : Char → Bool} (l1 l2 : List Char)
    (h : ∀ c ∈ l1, p c = true) :
    (l1 ++ l2).takeWhile p = l1 ++ l2.takeWhile p := by
  induction l1 with
  | nil => simp
  | cons a t ih =>
    simp only [List.cons_append, List.takeWhile_cons]
    rw [h a (by simp)]
    simp [ih (fun c hc => h c (by simp [hc]))]

/-- Helper: `dropWhile` drops a prefix all of whose elements satisfy the
predicate. -/
theorem dropWhile_append_all {p : Char → Bool} (l1 l2 : List Char)
    (h : ∀ c ∈ l1, p c = true) :
    (l1 ++ l2).dropWhile p = l2.dropWhile p := by
  induction l1 with
  | nil => simp
  | cons a t ih =>
    simp only [List.cons_append, List.dropWhile_cons]
    rw [h a (by simp)]
    simp [ih (fun c hc => h c (by simp [hc]))]

/-- Helper: rebuilding a string from its character list. -/
theorem mk_toList (s : String) : String.mk s.toList = s := by
  cases s
  rfl

/-- Helper: character list of an appended string. -/
theorem toList_append (s t : String) : (s ++ t).toList = s.toList ++ t.toList := by
  cases s
  cases t
  rfl

/-- Helper: a list not containing an element has `contains = false`. -/
theorem contains_eq_false {l : List Char} {c : Char} (h : c ∉ l) :
    l.contains c = false := by
  simpa using h

/-- Helper: a non-empty string has `isEmpty = false`. -/
theorem isEmpty_false_of_ne (s : String) (h : s ≠ "") : s.isEmpty = false := by
  cases hs : s.isEmpty
  · rfl
  · exact absurd ((String.isEmpty_iff s).mp hs) h

/-- Helper: a string with no characters is the empty string. -/
theorem toList_eq_nil (s : String) (hs : s.toList = []) : s = "" := by
  have h2 := congrArg String.mk hs
  rwa [mk_toList] at h2

/-- C5: the grammar of `addr.split`: `split "[2001:db8::11]:3317"` returns
the bracketed host with numeric port 3317 for any section table and default
port; an address with no colon returns the address itself with the default
port; and a one-colon address whose port string is not an integer resolves
the port string as a section alias through the table, propagating any lookup
error unchanged. -/
theorem split_grammar (sm : SectionMap) (a als : String) (dp : Int) :
    split "[2001:db8::11]:3317" sm dp = Except.ok ("2001:db8::11", 3317) ∧
    (':' ∉ a.toList → split a sm dp = Except.ok (a, dp)) ∧
    (':' ∉ a.toList → ':' ∉ als.toList → als ≠ "" → pyInt? als = none →
      split (a ++ ":" ++ als) sm dp =
        (sm.by_name als).map (fun s => (a, s.port))) := by
  refine ⟨rfl, ?_, ?_⟩
  · intro hnc
    have hcount : a.toList.count ':' = 0 := List.count_eq_zero.mpr hnc
    have hcont : a.toList.contains ':' = false := contains_eq_false hnc
    simp only [split, hcount, hcont]
    norm_num
    rfl
  · intro ha hals hne hint
    have hlist : (a ++ ":" ++ als).toList = a.toList ++ ':' :: als.toList := by
      rw [toList_append, toList_append]
      simp [List.append_assoc]
    have hcount : (a.toList ++ ':' :: als.toList).count ':' = 1 := by
      rw [List.count_append, List.count_eq_zero.mpr ha, List.count_cons_self,
        List.count_eq_zero.mpr hals]
    have hcont : (a.toList ++ ':' :: als.toList).contains ':' = true := by
      simp
    have htake : (a.toList ++ ':' :: als.toList).takeWhile (fun c => c ≠ ':') = a.toList := by
      rw [takeWhile_append_all _ _ (fun c hc => by simpa using ne_of_mem_of_not_mem hc ha)]
      simp [List.takeWhile_cons]
    have hdrop : (a.toList ++ ':' :: als.toList).dropWhile (fun c => c ≠ ':') =
        ':' :: als.toList := by
      rw [dropWhile_append_all _ _ (fun c hc => by simpa using ne_of_mem_of_not_mem hc ha)]
      simp [List.dropWhile_cons]
    have hie : ¬ (als.isEmpty = true) := by
      rw [isEmpty_false_of_ne als hne]
      exact Bool.false_ne_true
    simp only [split, hlist, hcount, hcont]
    rw [htake, hdrop]
    norm_num
    simp only [List.tail_cons, mk_toList, splitFinish]
    rw [hint, if_neg hie]

/-- Witness for C5 at a one-colon address with an alias port, over a
concrete section table. -/
theorem split_grammar_w :
    split "db2099:f1" ⟨[("f1", 10111)], [(10111, "f1")]⟩ 3306 =
      Except.ok ("db2099", 10111) := by
  have h := (split_grammar ⟨[("f1", 10111)], [(10111, "f1")]⟩ "db2099" "f1" 3306).2.2
    (by decide) (by decide) (by decide) (by decide)
  rw [show ("db2099" ++ ":" ++ "f1" : String) = "db2099:f1" from rfl] at h
  rw [h]
  decide

/-- C6: every address with more than one colon that starts with `[` but does
not match the bracketed-IPv6 regex fails with the error naming the bad
input; no (host, port) pair is returned. -/
theorem split_malformed_bracket (sm : SectionMap) (a : String) (dp : Int)
    (hc : 1 < a.toList.count ':') (hh : a.toList.head? = some '[')
    (hm : bracketMatch a.toList = none) :
    split a sm dp = Except.error (badBracketMsg a) := by
  simp only [split]
  rw [if_pos hc, if_pos hh, hm]

/-- Witness for C6 at the unterminated bracket address from the spec. -/
theorem split_malformed_bracket_w :
    split "[1::" ⟨[], []⟩ 3306 = Except.error (badBracketMsg "[1::") :=
  split_malformed_bracket ⟨[], []⟩ "[1::" 3306 (by decide) (by decide) (by decide)

/-- C10: when a colon (or bracketed-IPv6 syntax) is present but the captured
port string is empty or absent, `addr.split` does not fail and does not
consult the section table: it returns the host part with the default port
(for any table). -/
theorem split_empty_port (sm : SectionMap) (h : String) (dp : Int) :
    (':' ∉ h.toList → split (h ++ ":") sm dp = Except.ok (h, dp)) ∧
    (h ≠ "" → ']' ∉ h.toList → 1 < ("[" ++ h ++ "]").toList.count ':' →
      split ("[" ++ h ++ "]") sm dp = Except.ok (h, dp)) := by
  constructor
  · intro hnc
    have hlist : (h ++ ":").toList = h.toList ++ [':'] := by
      rw [toList_append]
      rfl
    have hcount : (h.toList ++ [':']).count ':' = 1 := by
      rw [List.count_append, List.count_eq_zero.mpr hnc]
      rfl
    have hcont : (h.toList ++ [':']).contains ':' = true := by simp
    have htake : (h.toList ++ [':']).takeWhile (fun c => c ≠ ':') = h.toList := by
      rw [takeWhile_append_all _ _ (fun c hc => by simpa using ne_of_mem_of_not_mem hc hnc)]
      simp
    have hdrop : (h.toList ++ [':']).dropWhile (fun c => c ≠ ':') = [':'] := by
      rw [dropWhile_append_all _ _ (fun c hc => by simpa using ne_of_mem_of_not_mem hc hnc)]
      rfl
    simp only [split, hlist, hcount, hcont]
    rw [if_pos trivial]
    rw [htake, hdrop, mk_toList]
    rfl
  · intro hne hnb hcount
    have hlist : ("[" ++ h ++ "]").toList = '[' :: (h.toList ++ [']']) := by
      rw [toList_append, toList_append]
      rfl
    have hhd : ("[" ++ h ++ "]").toList.head? = some '[' := by rw [hlist]; rfl
    have hlne : ¬ h.toList.isEmpty = true := by
      simp only [List.isEmpty_eq_true]
      intro hnil
      exact hne (toList_eq_nil h hnil)
    have htake : (h.toList ++ [']']).takeWhile (fun c => c ≠ ']') = h.toList := by
      rw [takeWhile_append_all _ _ (fun c hc => by simpa using ne_of_mem_of_not_mem hc hnb)]
      simp
    have hdrop : (h.toList ++ [']']).dropWhile (fun c => c ≠ ']') = [']'] := by
      rw [dropWhile_append_all _ _ (fun c hc => by simpa using ne_of_mem_of_not_mem hc hnb)]
      rfl
    have hmatch : bracketMatch ('[' :: (h.toList ++ [']'])) = some (h.toList, none) := by
      simp only [bracketMatch, htake, hdrop]
      rw [if_neg hlne]
    simp only [split]
    rw [if_pos hcount, if_pos hhd, hlist, hmatch]
    show splitFinish (String.mk h.toList) "" sm dp = Except.ok (h, dp)
    rw [mk_toList]
    rfl

/-- Witness for C10 at a trailing-colon address and a bracketed IPv6 address
without a port. -/
theorem split_empty_port_w :
    split "db2099:" ⟨[], []⟩ 3306 = Except.ok ("db2099", 3306) ∧
    split "[2001:db8::11]" ⟨[], []⟩ 3306 = Except.ok ("2001:db8::11", 3306) :=
  ⟨(split_empty_port ⟨[], []⟩ "db2099" 3306).1 (by decide),
   (split_empty_port ⟨[], []⟩ "2001:db8::11" 3306).2 (by decide) (by decide) (by decide)⟩

/-- Helper: an ASCII digit is not an ASCII letter. -/
theorem digit_not_alpha (c : Char) (h : c.isDigit = true) : isAsciiAlpha c = false := by
  simp [Char.isDigit] at h
  simp [isAsciiAlpha, Char.toNat]
  obtain ⟨h1, h2⟩ := h
  have hle := @UInt32.toNat_le_of_le c.val 57 (by norm_num) h2
  constructor
  · intro h3; omega
  · intro h3; omega

/-- C7: the contract of `addr.resolve`: every host string that parses as a
loopback IP address resolves to `localhost` (for any reverse-DNS
environment); every host string that is not an IP and matches
`^[a-zA-Z]+(\d)\d{3}$` (letters followed by exactly four digits) resolves to
`<host>.<dc>.wmnet` when the leading digit maps to a datacenter, and fails
otherwise; when the pattern does not match, it fails with the no-datacenter
error; concretely, `host1102` becomes `host1102.eqiad.wmnet`, `host9001`
fails (datacenter 9 unknown), `host333` fails (no pattern match). -/
theorem resolve_contract :
    (∀ (dns : String → Except String String) (h : String) (ip : IPAddr),
      ipAddress? h = some ip → ip.isLoopback = true →
        resolve dns h = Except.ok "localhost") ∧
    (∀ (dns : String → Except String String) (h : String) (pre rest : List Char)
        (d : Char),
      ipAddress? h = none →
      h.toList = pre ++ d :: rest →
      pre ≠ [] → pre.all isAsciiAlpha = true →
      (d :: rest).all Char.isDigit = true → rest.length = 3 →
      ((∀ dc, dcs.lookup (d.toNat - 48) = some dc →
          resolve dns h = Except.ok (h ++ "." ++ dc ++ ".wmnet")) ∧
       (dcs.lookup (d.toNat - 48) = none →
          resolve dns h = Except.error (unknownDcMsg (d.toNat - 48) h)))) ∧
    (∀ (dns : String → Except String String) (h : String),
      ipAddress? h = none →
      (h.toList.takeWhile isAsciiAlpha = [] ∨
        ¬ ((h.toList.dropWhile isAsciiAlpha).length = 4 ∧
           (h.toList.dropWhile isAsciiAlpha).all Char.isDigit = true)) →
      resolve dns h = Except.error (noDcMsg h)) ∧
    (∀ dns, resolve dns "127.0.0.1" = Except.ok "localhost") ∧
    (∀ dns, resolve dns "host1102" = Except.ok "host1102.eqiad.wmnet") ∧
    (∀ dns, resolve dns "host9001" = Except.error (unknownDcMsg 9 "host9001")) ∧
    (∀ dns, resolve dns "host333" = Except.error (noDcMsg "host333")) := by
  refine ⟨?_, ?_, ?_, fun dns => rfl, fun dns => rfl, fun dns => rfl, fun dns => rfl⟩
  · intro dns h ip hip hlb
    simp only [resolve]
    rw [hip]
    show resolveIp dns ip = Except.ok "localhost"
    simp only [resolveIp]
    rw [if_pos hlb]
  · intro dns h pre rest d hip hlist hpre hprea hall hlen
    have hpre2 : ∀ c ∈ pre, isAsciiAlpha c = true := by
      intro c hc
      exact List.all_eq_true.mp hprea c hc
    have hd : d.isDigit = true := by
      have := List.all_eq_true.mp hall d (by simp)
      simpa using this
    have htake : h.toList.takeWhile isAsciiAlpha = pre := by
      rw [hlist, takeWhile_append_all _ _ hpre2]
      simp [List.takeWhile_cons, digit_not_alpha d hd]
    have hdropw : h.toList.dropWhile isAsciiAlpha = d :: rest := by
      rw [hlist, dropWhile_append_all _ _ hpre2]
      simp [List.dropWhile_cons, digit_not_alpha d hd]
    obtain ⟨x2, x3, x4, hrest⟩ : ∃ x y z, rest = [x, y, z] := by
      rcases rest with _ | ⟨x, _ | ⟨y, _ | ⟨z, _ | ⟨w, tl⟩⟩⟩⟩ <;> simp_all
    subst hrest
    obtain ⟨t0, ttail, hpre3⟩ : ∃ t0 ttail, pre = t0 :: ttail := by
      rcases pre with _ | ⟨t0, ttail⟩
      · exact absurd rfl hpre
      · exact ⟨t0, ttail, rfl⟩
    have hdigits : d.isDigit ∧ x2.isDigit ∧ x3.isDigit ∧ x4.isDigit := by
      simpa using hall
    have hres : resolve dns h = dcMap h := by
      simp only [resolve]
      rw [hip]
    constructor
    · intro dc hdc
      rw [hres]
      simp only [dcMap]
      rw [htake, hdropw, hpre3]
      simp only [if_pos hdigits, hdc]
    · intro hdc
      rw [hres]
      simp only [dcMap]
      rw [htake, hdropw, hpre3]
      simp only [if_pos hdigits, hdc]
  · intro dns h hip hcond
    have hres : resolve dns h = dcMap h := by
      simp only [resolve]
      rw [hip]
    rw [hres]
    simp only [dcMap]
    split
    · rename_i heq1 heq2
      rcases hcond with hc | hc
      · rw [hc] at heq1
        simp at heq1
      · rw [heq2] at hc
        rw [if_neg (fun hdg =>
          hc ⟨by simp, by simp [hdg.1, hdg.2.1, hdg.2.2.1, hdg.2.2.2]⟩)]
    · rfl

/-- Witness for C7: the loopback literal `127.0.0.1` under a reverse-DNS
environment that always fails still resolves to `localhost`. -/
theorem resolve_contract_w :
    resolve (fun _ => Except.error "") "127.0.0.1" = Except.ok "localhost" :=
  resolve_contract.1 (fun _ => Except.error "") "127.0.0.1" (IPAddr.v4 2130706433)
    (by decide) (by decide)

/-- C1 (refuting evaluation): `_set_arg` guards on the config key name, not
the output parameter name, so with a config providing `socket` a caller's
`unix_socket` override is overwritten by the config-sourced value — contrary
to the function's documented "any arguments passed in take priority over
my.cnf settings". -/
theorem conn_args_override_clobbered :
    Cnf.pymysql_conn_args ⟨["client"], [("client", [("socket", some "/cfg.sock")])]⟩
        [("unix_socket", Val.str "/override.sock")] =
      Except.ok [("unix_socket", Val.str "/cfg.sock")] ∧
    Cnf.pymysql_conn_args ⟨["client"], [("client", [("socket", some "/cfg.sock")])]⟩
        [("unix_socket", Val.str "/override.sock")] ≠
      Except.ok [("unix_socket", Val.str "/override.sock")] :=
  ⟨by decide, by decide⟩

/-- Helper: replacing a present key makes its value the lookup result. -/
theorem lookup_map_replace_found (k : Kwargs) (arg : String) (v : Val)
    (h : (List.lookup arg k).isSome = true) :
    List.lookup arg (k.map (fun q => if q.1 = arg then (arg, v) else q)) = some v := by
  induction k with
  | nil => simp at h
  | cons p t ih =>
    obtain ⟨pk, pv⟩ := p
    by_cases hp : pk = arg
    · simp [List.lookup_cons, hp]
    · have harg : (arg == pk) = false := beq_false_of_ne (fun hh => hp hh.symm)
      simp only [List.map_cons, List.lookup_cons, harg] at h ⊢
      rw [if_neg hp]
      simp only [List.lookup_cons, harg]
      exact ih h

/-- Helper: appending a fresh key makes its value the lookup result. -/
theorem lookup_append_single_self (k : Kwargs) (arg : String) (v : Val)
    (h : (List.lookup arg k).isSome = false) :
    List.lookup arg (k ++ [(arg, v)]) = some v := by
  induction k with
  | nil => simp [List.lookup_cons]
  | cons p t ih =>
    obtain ⟨pk, pv⟩ := p
    by_cases hp : arg = pk
    · simp [List.lookup_cons, beq_iff_eq, hp] at h
    · have harg : (arg == pk) = false := beq_false_of_ne hp
      simp only [List.cons_append, List.lookup_cons, harg] at h ⊢
      exact ih h

/-- Helper: replacing one key leaves other lookups unchanged. -/
theorem lookup_map_replace_ne (k : Kwargs) (arg x : String) (v : Val) (hx : x ≠ arg) :
    List.lookup x (k.map (fun q => if q.1 = arg then (arg, v) else q)) =
      List.lookup x k := by
  induction k with
  | nil => simp
  | cons p t ih =>
    obtain ⟨pk, pv⟩ := p
    by_cases hp : pk = arg
    · have hxp : (x == arg) = false := beq_false_of_ne hx
      have hxp2 : (x == pk) = false := by rw [hp]; exact hxp
      simp only [List.map_cons, List.lookup_cons]
      rw [if_pos hp]
      simp only [List.lookup_cons, hxp, hxp2]
      exact ih
    · simp only [List.map_cons, List.lookup_cons]
      rw [if_neg hp]
      simp only [List.lookup_cons]
      cases hxe : (x == pk) <;> simp only [hxe]
      exact ih

/-- Helper: appending one key leaves other lookups unchanged. -/
theorem lookup_append_single_ne (k : Kwargs) (arg x : String) (v : Val) (hx : x ≠ arg) :
    List.lookup x (k ++ [(arg, v)]) = List.lookup x k := by
  induction k with
  | nil => simp [List.lookup_cons, beq_false_of_ne hx]
  | cons p t ih =>
    obtain ⟨pk, pv⟩ := p
    simp only [List.cons_append, List.lookup_cons]
    cases hxe : (x == pk) <;> simp only [hxe]
    exact ih

/-- Helper: the key just written by `kwInsert` is found with its value. -/
theorem kwLookup_insert_self (k : Kwargs) (arg : String) (v : Val) :
    kwLookup (kwInsert k arg v) arg = some v := by
  unfold kwInsert kwLookup
  split
  · rename_i hsome
    exact lookup_map_replace_found k arg v hsome
  · rename_i hns
    have hf : (List.lookup arg k).isSome = false := by
      cases hcase : (List.lookup arg k).isSome
      · rfl
      · exact absurd hcase hns
    exact lookup_append_single_self k arg v hf

/-- Helper: `kwInsert` leaves other keys' lookups unchanged. -/
theorem kwLookup_insert_ne (k : Kwargs) (arg x : String) (v : Val) (hx : x ≠ arg) :
    kwLookup (kwInsert k arg v) x = kwLookup k x := by
  unfold kwInsert kwLookup
  split
  · exact lookup_map_replace_ne k arg x v hx
  · exact lookup_append_single_ne k arg x v hx

/-- Helper: a successful `_set_arg` never changes keys other than `arg`. -/
theorem setArg_lookup_ne {c : Cnf} {k k' : Kwargs} {key arg : String}
    {g : Cnf → String → Except String (Option Val)} (x : String)
    (hok : setArg c k key arg g = Except.ok k') (hx : x ≠ arg) :
    kwLookup k' x = kwLookup k x := by
  unfold setArg at hok
  split at hok
  · cases hok
    rfl
  · split at hok
    · exact Except.noConfusion hok
    · cases hok
      rfl
    · cases hok
      exact kwLookup_insert_ne k arg x _ hx

/-- Helper: `_set_arg` on an absent key with a produced value inserts it. -/
theorem setArg_eq_insert (c : Cnf) (k : Kwargs) (key arg : String)
    {g : Cnf → String → Except String (Option Val)} {v : Val}
    (hk : (kwLookup k key).isSome = false)
    (hg : g c key = Except.ok (some v)) :
    setArg c k key arg g = Except.ok (kwInsert k arg v) := by
  unfold setArg
  rw [if_neg (by simp [hk]), hg]

/-- Helper: inversion of a successful `Except` bind. -/
theorem bindE_ok_inv {α β : Type} {x : Except String α} {f : α → Except String β} {b : β}
    (h : (x >>= f) = Except.ok b) : ∃ a, x = Except.ok a ∧ f a = Except.ok b := by
  cases x with
  | error e => exact absurd h (by simp [Bind.bind, Except.bind])
  | ok a =>
    refine ⟨a, rfl, ?_⟩
    simpa [Bind.bind, Except.bind] using h

/-- C9: the socket-vs-port selection policy of `pymysql_conn_args`: when the
merged arguments carry no host, or the host is exactly `"localhost"`, the
result carries the config's socket path as `unix_socket` and no port
(config-sourced or otherwise, the overrides carrying none); when a different
host is present, the result carries the config's port as an integer and no
`unix_socket`. -/
theorem conn_args_socket_vs_port (c : Cnf) (ov res : Kwargs) (s : String)
    (hs : kwLookup ov "socket" = none)
    (hu : kwLookup ov "unix_socket" = none)
    (hp : kwLookup ov "port" = none)
    (hsock : c.get_str "socket" = some s)
    (hres : c.pymysql_conn_args ov = Except.ok res) :
    ((kwLookup res "host" = none ∨ kwLookup res "host" = some (Val.str "localhost")) →
      kwLookup res "unix_socket" = some (Val.str s) ∧ kwLookup res "port" = none) ∧
    (¬ (kwLookup res "host" = none ∨ kwLookup res "host" = some (Val.str "localhost")) →
      ∀ p, c.get_int "port" = Except.ok (some p) →
        kwLookup res "port" = some (Val.int p) ∧ kwLookup res "unix_socket" = none) := by
  simp only [Cnf.pymysql_conn_args] at hres
  obtain ⟨k1, h1, hres⟩ := bindE_ok_inv hres
  obtain ⟨k2, h2, hres⟩ := bindE_ok_inv hres
  obtain ⟨k3, h3, hres⟩ := bindE_ok_inv hres
  obtain ⟨k4, h4, hres⟩ := bindE_ok_inv hres
  have chain4 : ∀ x, x ≠ "user" → x ≠ "password" → x ≠ "host" → x ≠ "database" →
      kwLookup k4 x = kwLookup ov x := by
    intro x n1 n2 n3 n4
    rw [setArg_lookup_ne x h4 n4, setArg_lookup_ne x h3 n3, setArg_lookup_ne x h2 n2,
      setArg_lookup_ne x h1 n1]
  have h4sock : kwLookup k4 "socket" = none := by
    rw [chain4 "socket" (by decide) (by decide) (by decide) (by decide)]
    exact hs
  have h4us : kwLookup k4 "unix_socket" = none := by
    rw [chain4 "unix_socket" (by decide) (by decide) (by decide) (by decide)]
    exact hu
  have h4port : kwLookup k4 "port" = none := by
    rw [chain4 "port" (by decide) (by decide) (by decide) (by decide)]
    exact hp
  by_cases hc : kwLookup k4 "host" = none ∨ kwLookup k4 "host" = some (Val.str "localhost")
  · rw [if_pos hc] at hres
    obtain ⟨k5, h5, hres⟩ := bindE_ok_inv hres
    obtain ⟨k6, h6, hres⟩ := bindE_ok_inv hres
    obtain ⟨k7, h7, hres⟩ := bindE_ok_inv hres
    obtain ⟨k8, h8, hres⟩ := bindE_ok_inv hres
    obtain ⟨k9, h9, hres⟩ := bindE_ok_inv hres
    obtain ⟨k10, h10, hres⟩ := bindE_ok_inv hres
    obtain ⟨k11, h11, hres⟩ := bindE_ok_inv hres
    obtain ⟨k12, h12, hres⟩ := bindE_ok_inv hres
    obtain ⟨k13, h13, hres⟩ := bindE_ok_inv hres
    obtain ⟨k14, h14, hres⟩ := bindE_ok_inv hres
    have hkres : k14 = res := by
      simpa [pure, Except.pure] using hres
    subst hkres
    have chain : ∀ x, x ≠ "charset" → x ≠ "connect_timeout" → x ≠ "max_allowed_packet" →
        x ≠ "bind_address" → x ≠ "ssl_ca" → x ≠ "ssl_cert" → x ≠ "ssl_key" →
        x ≠ "ssl_verify_cert" → x ≠ "ssl_verify_identity" →
        kwLookup k14 x = kwLookup k5 x := by
      intro x n1 n2 n3 n4 n5 n6 n7 n8 n9
      rw [setArg_lookup_ne x h14 n9, setArg_lookup_ne x h13 n8, setArg_lookup_ne x h12 n7,
        setArg_lookup_ne x h11 n6, setArg_lookup_ne x h10 n5, setArg_lookup_ne x h9 n4,
        setArg_lookup_ne x h8 n3, setArg_lookup_ne x h7 n2, setArg_lookup_ne x h6 n1]
    have hreshost : kwLookup k14 "host" = kwLookup k4 "host" := by
      rw [chain "host" (by decide) (by decide) (by decide) (by decide) (by decide)
        (by decide) (by decide) (by decide) (by decide)]
      exact setArg_lookup_ne "host" h5 (by decide)
    have hg : getStrV c "socket" = Except.ok (some (Val.str s)) := by
      simp [getStrV, hsock]
    have hins := setArg_eq_insert c k4 "socket" "unix_socket" (by simp [h4sock]) hg
    rw [hins] at h5
    have hk5 : kwInsert k4 "unix_socket" (Val.str s) = k5 := by
      simpa using h5
    constructor
    · intro _
      constructor
      · rw [chain "unix_socket" (by decide) (by decide) (by decide) (by decide) (by decide)
          (by decide) (by decide) (by decide) (by decide), ← hk5]
        exact kwLookup_insert_self k4 "unix_socket" (Val.str s)
      · rw [chain "port" (by decide) (by decide) (by decide) (by decide) (by decide)
          (by decide) (by decide) (by decide) (by decide), ← hk5]
        rw [kwLookup_insert_ne k4 "unix_socket" "port" (Val.str s) (by decide)]
        exact h4port
    · intro hcond
      have hc14 : kwLookup k14 "host" = none ∨
          kwLookup k14 "host" = some (Val.str "localhost") := by
        rw [hreshost]
        exact hc
      exact absurd hc14 hcond
  · rw [if_neg hc] at hres
    obtain ⟨k5, h5, hres⟩ := bindE_ok_inv hres
    obtain ⟨k6, h6, hres⟩ := bindE_ok_inv hres
    obtain ⟨k7, h7, hres⟩ := bindE_ok_inv hres
    obtain ⟨k8, h8, hres⟩ := bindE_ok_inv hres
    obtain ⟨k9, h9, hres⟩ := bindE_ok_inv hres
    obtain ⟨k10, h10, hres⟩ := bindE_ok_inv hres
    obtain ⟨k11, h11, hres⟩ := bindE_ok_inv hres
    obtain ⟨k12, h12, hres⟩ := bindE_ok_inv hres
    obtain ⟨k13, h13, hres⟩ := bindE_ok_inv hres
    obtain ⟨k14, h14, hres⟩ := bindE_ok_inv hres
    have hkres : k14 = res := by
      simpa [pure, Except.pure] using hres
    subst hkres
    have chain : ∀ x, x ≠ "charset" → x ≠ "connect_timeout" → x ≠ "max_allowed_packet" →
        x ≠ "bind_address" → x ≠ "ssl_ca" → x ≠ "ssl_cert" → x ≠ "ssl_key" →
        x ≠ "ssl_verify_cert" → x ≠ "ssl_verify_identity" →
        kwLookup k14 x = kwLookup k5 x := by
      intro x n1 n2 n3 n4 n5 n6 n7 n8 n9
      rw [setArg_lookup_ne x h14 n9, setArg_lookup_ne x h13 n8, setArg_lookup_ne x h12 n7,
        setArg_lookup_ne x h11 n6, setArg_lookup_ne x h10 n5, setArg_lookup_ne x h9 n4,
        setArg_lookup_ne x h8 n3, setArg_lookup_ne x h7 n2, setArg_lookup_ne x h6 n1]
    have hreshost : kwLookup k14 "host" = kwLookup k4 "host" := by
      rw [chain "host" (by decide) (by decide) (by decide) (by decide) (by decide)
        (by decide) (by decide) (by decide) (by decide)]
      exact setArg_lookup_ne "host" h5 (by decide)
    constructor
    · intro hcond
      have hc14 : ¬ (kwLookup k14 "host" = none ∨
          kwLookup k14 "host" = some (Val.str "localhost")) := by
        rw [hreshost]
        exact hc
      exact absurd hcond hc14
    · intro _ p hip
      have hg : getIntV c "port" = Except.ok (some (Val.int p)) := by
        simp [getIntV, hip, Except.map]
      have hins := setArg_eq_insert c k4 "port" "port" (by simp [h4port]) hg
      rw [hins] at h5
      have hk5 : kwInsert k4 "port" (Val.int p) = k5 := by
        simpa using h5
      constructor
      · rw [chain "port" (by decide) (by decide) (by decide) (by decide) (by decide)
          (by decide) (by decide) (by decide) (by decide), ← hk5]
        exact kwLookup_insert_self k4 "port" (Val.int p)
      · rw [chain "unix_socket" (by decide) (by decide) (by decide) (by decide) (by decide)
          (by decide) (by decide) (by decide) (by decide), ← hk5]
        rw [kwLookup_insert_ne k4 "port" "unix_socket" (Val.int p) (by decide)]
        exact h4us

/-- Witness for C9: with a config providing only a socket path and no
overrides, the produced arguments carry the socket and no port. -/
theorem conn_args_socket_vs_port_w :
    kwLookup [("unix_socket", Val.str "/run/m.sock")] "unix_socket" =
      some (Val.str "/run/m.sock") ∧
    kwLookup [("unix_socket", Val.str "/run/m.sock")] "port" = none :=
  (conn_args_socket_vs_port ⟨["client"], [("client", [("socket", some "/run/m.sock")])]⟩
    [] [("unix_socket", Val.str "/run/m.sock")] "/run/m.sock"
    (by decide) (by decide) (by decide) (by decide) (by decide)).1 (by decide)

end Wmfdb
